import Mathlib

/-!
Shallow embedding of `src/fare_watch.py` (a single-file fare-watching bot).

The program is modelled as a function from a `World` (the run's environment:
env vars, network responses, state-file content, the clock, SMTP success)
to a `RunResult` (the ordered trace of observable effects, the final outcome,
the in-memory ledger, the batched alerts and the two counters).

Modelling conventions, each noted where used:
* JSON values are the inductive `Json` with rationals for numbers
  (Python floats are modelled as `ℚ`; `time.time()` is the rational `now`).
* Python `sys.exit(1)` is `Outcome.exited 1`; an uncaught exception is
  `Outcome.raised e`.
* Network requests, prints and sleeps are `Effect`s carrying their data;
  HTML/f-string presentation is abstracted to the structured payload
  (an `Alert` record instead of the rendered HTML snippet).
* `int(...)` parsing of env values is modelled by `pyParseInt`
  (optional leading minus followed by decimal digits).
-/

namespace FareWatch

attribute [local semireducible] Rat.sub Rat.mul Rat.add Rat.inv

/-- JSON values as produced by `json.loads` (numbers as rationals). -/
inductive Json where
  | null
  | bool (b : Bool)
  | num (q : ℚ)
  | str (s : String)
  | arr (elems : List Json)
  | obj (fields : List (String × Json))

/-- Association-list lookup, modelling Python `dict` subscript/`get` access
(first binding wins; `json.loads` keeps the last duplicate key, but the
program only ever reads maps it built itself, which have unique keys). -/
def alistFind : List (String × Json) → String → Option Json
  | [], _ => none
  | (k, v) :: rest, key => if k = key then some v else alistFind rest key

/-- Association-list update, modelling Python `dict` item assignment:
an existing key is overwritten in place, a new key is appended. -/
def alistSet : List (String × Json) → String → Json → List (String × Json)
  | [], key, v => [(key, v)]
  | (k, w) :: rest, key, v =>
    if k = key then (k, v) :: rest else (k, w) :: alistSet rest key v

/-- The uncaught Python exceptions the script can die with. -/
inductive PyError where
  | keyError        -- subscripting a dict with a missing key
  | typeError       -- subscripting / arithmetic on a value of the wrong type
  | attributeError  -- calling `.get` on a non-dict
  | valueError      -- `int(...)` on a non-numeric string
  | requestError    -- requests exception escaping `inspiration` (line 85)
  | smtpError       -- smtplib failure escaping `send_email` (lines 121-123)
deriving DecidableEq, Repr

/-- How a run of `main` ends. -/
inductive Outcome where
  | finished
  | exited (code : Nat)
  | raised (e : PyError)
deriving DecidableEq, Repr

/-- One alerted deal: the data interpolated into the HTML snippet appended
to `alerts` at lines 192-197 (presentation markup abstracted away). -/
structure Alert where
  origin : String
  dest : String
  dep : String
  ret : String
  price : ℚ
deriving DecidableEq, Repr

/-- Observable effects of a run, in program order. -/
inductive Effect where
  | netTokenPost                                      -- POST oauth2/token, line 61
  | netInspirationGet (origin : String) (maxPrice : ℤ)  -- GET flight-destinations, line 80
  | netOffersGet (origin dest dep ret : String)       -- GET flight-offers, line 100
  | smtpDeliver (host : String) (port : ℤ) (user rcpt : String) (alerts : List Alert)
      -- SMTP connect/starttls/login/send attempt, lines 121-123
  | stateWrite (j : Json)                             -- STATE_FILE.write_text, line 134
  | logError (msg : String)                           -- prints to stderr
  | logWarn (origin dest dep ret : String)            -- offers-failed warning, line 170
  | logInfo (tag : String)                            -- progress prints, lines 150 and 152
  | sleepMs (ms : ℤ)                                  -- time.sleep between lookups

/-- Whether an effect is an outbound network call (HTTP or SMTP). -/
def Effect.isNetwork : Effect → Bool
  | .netTokenPost => true
  | .netInspirationGet _ _ => true
  | .netOffersGet _ _ _ _ => true
  | .smtpDeliver _ _ _ _ _ => true
  | _ => false

/-- Whether an effect writes the persisted state file. -/
def Effect.isStateWrite : Effect → Bool
  | .stateWrite _ => true
  | _ => false

/-- The content of `state.json` at run start: absent, present but not valid
JSON (so `json.loads` raises), or present and parsed to a JSON value. -/
inductive StateFile where
  | missing
  | unreadable
  | parsed (j : Json)

/-- The outcome of one `offers(...)` live-price lookup (lines 166-183),
keeping exactly the distinctions the caller makes: the request raised a
requests exception (caught at line 168); the response's `data` list was
empty (line 175); `float(live[0]["price"]["grandTotal"])` raised
(lines 179-183); or a price was extracted. -/
inductive OffersResult where
  | reqError
  | emptyData
  | badPrice
  | priced (q : ℚ)
deriving DecidableEq, Repr

/-- Environment variables: `os.getenv`. -/
abbrev Env := String → Option String

/-- The ambient world a single run interacts with. -/
structure World where
  env : Env
  tokenOk : Bool                      -- does the oauth2 POST succeed (lines 60-71)
  inspResult : Except Unit (List (Option String × Option String × Option String))
      -- inspiration result: error means `raise_for_status` raised (uncaught);
      -- ok carries the records' (destination, departureDate, returnDate) fields,
      -- each `none` when absent (`it.get(...)`, lines 160-162)
  offersAt : Nat → OffersResult       -- result of the offers call in loop iteration i
  fileContent : StateFile
  now : ℚ                             -- time.time()
  smtpOk : Bool                       -- does the SMTP delivery block succeed

/-- `os.getenv(name, default)`: the default is used only when the variable
is unset (an empty string is returned as such). -/
def getenvD (env : Env) (name dflt : String) : String :=
  (env name).getD dflt

/-- Helper for `pyParseInt`: all characters must be decimal digits. -/
def pyParseNatAux : List Char → Nat → Option Nat
  | [], acc => some acc
  | c :: rest, acc =>
    if c.isDigit then pyParseNatAux rest (acc * 10 + (c.toNat - 48)) else none

/-- Python `int(s)` on the strings this program feeds it: an optional
leading minus followed by at least one decimal digit; anything else
raises `ValueError` (modelled as `none`). -/
def pyParseInt (s : String) : Option ℤ :=
  match s.data with
  | [] => none
  | '-' :: rest =>
    match rest with
    | [] => none
    | _ => (pyParseNatAux rest 0).map (fun n => -(n : ℤ))
  | _ => (pyParseNatAux s.data 0).map (fun n => (n : ℤ))

/-- Python truthiness of an optional string: `None` and `""` are falsy
(the `if not (dest and dep and ret)` guard at line 163). -/
def truthy : Option String → Bool
  | none => false
  | some s => !(s == "")

/-- `require_env` (lines 50-55): returns the printed effects and the value;
`none` for the value means the source called `sys.exit(1)`. -/
def require_env (env : Env) (name : String) : List Effect × Option String :=
  match env name with
  | some v =>
    if v = "" then
      ([Effect.logError ("[ERROR] Missing required env var: " ++ name)], none)
    else ([], some v)
  | none => ([Effect.logError ("[ERROR] Missing required env var: " ++ name)], none)

/-- `load_state` (lines 125-131): a missing file or one `json.loads`
rejects yields `{"alerts": {}}`; any parsed JSON value is returned as-is. -/
def load_state : StateFile → Json
  | .missing => .obj [("alerts", .obj [])]
  | .unreadable => .obj [("alerts", .obj [])]
  | .parsed j => j

/-- `save_state` (lines 133-134): the effect the state-file write would
emit. The function is defined in the source but never invoked by `main`. -/
def save_state (state : Json) : Effect :=
  .stateWrite state

/-- Python `int(float)` truncation toward zero (the `int(live_total)` in
the fingerprint at line 186): `Int.div` is T-division, matching Python
`int()` on a rational value. -/
def pyint (q : ℚ) : ℤ :=
  Int.tdiv q.num (q.den : ℤ)

/-- Decimal rendering of a natural number, as Python `str` does inside an
f-string (most significant digit first; `0` renders as `"0"`). -/
def natStr (n : ℕ) : String :=
  if n = 0 then "0" else ⟨((Nat.digits 10 n).map Nat.digitChar).reverse⟩

/-- Decimal rendering of an integer, as Python `str`. -/
def intStr (n : ℤ) : String :=
  if n < 0 then "-" ++ natStr n.natAbs else natStr n.toNat

/-- The deal fingerprint, line 186:
`f"{origin}-{dest}-{dep}-{ret}-{int(live_total)}"`. -/
def fingerprint (origin dest dep ret : String) (p : ℚ) : String :=
  origin ++ "-" ++ dest ++ "-" ++ dep ++ "-" ++ ret ++ "-" ++ intStr (pyint p)

/-- The fingerprint the loop computed for an alerted candidate. -/
def Alert.key (a : Alert) : String :=
  fingerprint a.origin a.dest a.dep a.ret a.price

/-- Numeric coercion used by `time.time() - last` (line 188): Python
subtracts floats and bools from floats; anything else is a `TypeError`. -/
def jsonNum : Json → Option ℚ
  | .num q => some q
  | .bool b => some (if b then 1 else 0)
  | _ => none

/-- `state["alerts"].get(key, 0)` followed by its numeric use at line 188:
faithfully raising `TypeError` when `state` is not a dict, `KeyError` when
it lacks `"alerts"`, `AttributeError` when `state["alerts"]` is not a dict,
and `TypeError` when the stored value is not a number. -/
def stateAlertsGet (state : Json) (key : String) : Except PyError ℚ :=
  match state with
  | .obj fields =>
    match alistFind fields "alerts" with
    | some (.obj am) =>
      match alistFind am key with
      | some v =>
        match jsonNum v with
        | some q => .ok q
        | none => .error .typeError
      | none => .ok 0
    | some _ => .error .attributeError
    | none => .error .keyError
  | _ => .error .typeError

/-- `state["alerts"][key] = time.time()` (line 198). -/
def stateAlertsSet (state : Json) (key : String) (t : ℚ) : Except PyError Json :=
  match state with
  | .obj fields =>
    match alistFind fields "alerts" with
    | some (.obj am) =>
      .ok (.obj (alistSet fields "alerts" (.obj (alistSet am key (.num t)))))
    | some _ => .error .typeError
    | none => .error .keyError
  | _ => .error .typeError

/-- The per-run constants the candidate loop closes over. -/
structure Params where
  origin : String
  max_price : ℤ
  sleep_ms : ℤ
  now : ℚ

/-- The loop's accumulated state: the in-memory ledger, the alert batch,
the two counters and the effects emitted so far. -/
structure LoopAcc where
  state : Json
  alerts : List Alert
  checked : ℕ
  errors : ℕ
  trace : List Effect

/-- One iteration of the candidate loop, lines 159-200. The second
component is `some e` when the iteration raised the uncaught exception `e`
(only possible at the ledger accesses on a malformed state). -/
def candStep (p : Params) (oracle : Nat → OffersResult)
    (it : Option String × Option String × Option String) (i : ℕ)
    (acc : LoopAcc) : LoopAcc × Option PyError :=
  match it with
  | (dest?, dep?, ret?) =>
    match dest?, dep?, ret? with
    | some dest, some dep, some ret =>
      if dest = "" ∨ dep = "" ∨ ret = "" then (acc, none)   -- line 163 `not (...)`
      else
        -- line 167: the offers GET itself
        let acc := { acc with trace := acc.trace ++ [Effect.netOffersGet p.origin dest dep ret] }
        match oracle i with
        | .reqError =>
          -- lines 168-172: caught, warned, no sleep
          ({ acc with errors := acc.errors + 1,
                      trace := acc.trace ++ [Effect.logWarn p.origin dest dep ret] }, none)
        | .emptyData =>
          -- lines 174-177
          ({ acc with checked := acc.checked + 1,
                      trace := acc.trace ++ [Effect.sleepMs p.sleep_ms] }, none)
        | .badPrice =>
          -- lines 174, 179-183
          ({ acc with checked := acc.checked + 1,
                      trace := acc.trace ++ [Effect.sleepMs p.sleep_ms] }, none)
        | .priced q =>
          let acc := { acc with checked := acc.checked + 1 }
          if q ≤ (p.max_price : ℚ) then                     -- line 185
            let key := fingerprint p.origin dest dep ret q  -- line 186
            match stateAlertsGet acc.state key with         -- line 187
            | .error e => (acc, some e)
            | .ok last =>
              if p.now - last < 48 * 3600 then              -- line 188
                ({ acc with trace := acc.trace ++ [Effect.sleepMs p.sleep_ms] }, none)
              else
                match stateAlertsSet acc.state key p.now with  -- line 198
                | .error e => (acc, some e)
                | .ok st =>
                  -- lines 192-198 then the line-200 sleep
                  ({ acc with state := st,
                              alerts := acc.alerts ++ [⟨p.origin, dest, dep, ret, q⟩],
                              trace := acc.trace ++ [Effect.sleepMs p.sleep_ms] }, none)
          else
            ({ acc with trace := acc.trace ++ [Effect.sleepMs p.sleep_ms] }, none)  -- line 200
    | _, _, _ => (acc, none)                                -- lines 163-164

/-- The candidate loop over `insp[:max_candidates]` (line 159), indexed so
the oracle can answer each offers call; stops at the first uncaught
exception. -/
def runCandidates (p : Params) (oracle : Nat → OffersResult) :
    List (Option String × Option String × Option String) → ℕ → LoopAcc →
    LoopAcc × Option PyError
  | [], _, acc => (acc, none)
  | it :: rest, i, acc =>
    match candStep p oracle it i acc with
    | (acc, some e) => (acc, some e)
    | (acc, none) => runCandidates p oracle rest (i + 1) acc

/-- Python `l[:n]` for an `int` bound: a prefix either way (a negative
bound drops the last `|n|` elements). -/
def pySlice (n : ℤ) (l : List α) : List α :=
  if 0 ≤ n then l.take n.toNat else l.take (l.length - (-n).toNat)

/-- `get_token` (lines 57-71): requires the two Amadeus credentials, then
performs the token POST; `none` means the source called `sys.exit(1)`. -/
def get_token (w : World) : List Effect × Option Unit :=
  let r1 := require_env w.env "AMADEUS_CLIENT_ID"
  match r1.2 with
  | none => (r1.1, none)
  | some _ =>
    let r2 := require_env w.env "AMADEUS_CLIENT_SECRET"
    match r2.2 with
    | none => (r1.1 ++ r2.1, none)
    | some _ =>
      if w.tokenOk then (r1.1 ++ r2.1 ++ [Effect.netTokenPost], some ())
      else (r1.1 ++ r2.1 ++ [Effect.netTokenPost,
              .logError "[ERROR] Amadeus token request failed"], none)

/-- `send_email` (lines 108-123): the five `require_env` checks in source
order, the `int(...)` of the port, then the SMTP delivery attempt; an
SMTP failure escapes as an uncaught exception. -/
def send_email (w : World) (alerts : List Alert) : List Effect × Outcome :=
  let r1 := require_env w.env "SMTP_HOST"
  match r1.2 with
  | none => (r1.1, .exited 1)
  | some host =>
  let r2 := require_env w.env "SMTP_PORT"
  match r2.2 with
  | none => (r1.1 ++ r2.1, .exited 1)
  | some portStr =>
  match pyParseInt portStr with
  | none => (r1.1 ++ r2.1, .raised .valueError)   -- int() raised, line 110
  | some port =>
  let r3 := require_env w.env "SMTP_USER"
  match r3.2 with
  | none => (r1.1 ++ r2.1 ++ r3.1, .exited 1)
  | some user =>
  let r4 := require_env w.env "SMTP_PASS"
  match r4.2 with
  | none => (r1.1 ++ r2.1 ++ r3.1 ++ r4.1, .exited 1)
  | some _ =>
  let r5 := require_env w.env "RECIPIENT_EMAIL"
  match r5.2 with
  | none => (r1.1 ++ r2.1 ++ r3.1 ++ r4.1 ++ r5.1, .exited 1)
  | some rcpt =>
    let eff := Effect.smtpDeliver host port user rcpt alerts
    if w.smtpOk then
      (r1.1 ++ r2.1 ++ r3.1 ++ r4.1 ++ r5.1 ++ [eff], .finished)
    else
      (r1.1 ++ r2.1 ++ r3.1 ++ r4.1 ++ r5.1 ++ [eff], .raised .smtpError)

/-- What a run leaves behind: the effect trace in order, the outcome, the
final in-memory ledger, the alert batch and the counters. On a path that
terminates before `load_state` runs, the ledger field holds the empty
ledger placeholder (the program never materialised one). -/
structure RunResult where
  trace : List Effect
  outcome : Outcome
  state : Json
  alerts : List Alert
  checked : ℕ
  errors : ℕ

/-- Result of a run that terminated before entering the candidate loop. -/
def earlyResult (t : List Effect) (o : Outcome) : RunResult :=
  ⟨t, o, .obj [("alerts", .obj [])], [], 0, 0⟩

/-- `main` (lines 137-204), end to end: config parsing, token fetch,
inspiration search, state load, the candidate loop, and the final
conditional email. Note the source neither calls `save_state` nor guards
`send_email`. -/
def main (w : World) : RunResult :=
  -- lines 138-142: ORIGIN has a default; the four int(...) parses can raise
  let origin := getenvD w.env "ORIGIN" "BER"
  match pyParseInt (getenvD w.env "MAX_PRICE_EUR" "80") with
  | none => earlyResult [] (.raised .valueError)
  | some max_price =>
  match pyParseInt (getenvD w.env "DAYS_AHEAD" "180") with
  | none => earlyResult [] (.raised .valueError)
  | some _days_ahead =>
  match pyParseInt (getenvD w.env "MAX_CANDIDATES" "8") with
  | none => earlyResult [] (.raised .valueError)
  | some max_candidates =>
  match pyParseInt (getenvD w.env "SLEEP_BETWEEN_MS" "300") with
  | none => earlyResult [] (.raised .valueError)
  | some sleep_ms =>
  -- line 144
  let tk := get_token w
  match tk.2 with
  | none => earlyResult tk.1 (.exited 1)
  | some _ =>
  -- lines 150-151
  let pre := tk.1 ++ [Effect.logInfo "search", .netInspirationGet origin max_price]
  match w.inspResult with
  | .error _ => earlyResult pre (.raised .requestError)   -- line 85 raise, uncaught
  | .ok insp =>
  -- lines 152-159
  let pre := pre ++ [Effect.logInfo "candidates"]
  let state0 := load_state w.fileContent
  let r := runCandidates ⟨origin, max_price, sleep_ms, w.now⟩ w.offersAt
    (pySlice max_candidates insp) 0 ⟨state0, [], 0, 0, []⟩
  match r with
  | (acc, some e) => ⟨pre ++ acc.trace, .raised e, acc.state, acc.alerts, acc.checked, acc.errors⟩
  | (acc, none) =>
    -- lines 202-204
    if acc.alerts.isEmpty then
      ⟨pre ++ acc.trace, .finished, acc.state, acc.alerts, acc.checked, acc.errors⟩
    else
      let se := send_email w acc.alerts
      ⟨pre ++ acc.trace ++ se.1, se.2, acc.state, acc.alerts, acc.checked, acc.errors⟩

/-- The configured validation bound: `int(os.getenv("MAX_CANDIDATES", "8"))`
(line 141). -/
def maxCandidatesOf (env : Env) : Option ℤ :=
  pyParseInt (getenvD env "MAX_CANDIDATES" "8")

/-- Whether an effect is a print to stderr. -/
def Effect.isErrorLog : Effect → Bool
  | .logError _ => true
  | _ => false

/-- Does a trace contain a state-file write? -/
def writesState (t : List Effect) : Bool :=
  t.any Effect.isStateWrite

/-- Does a trace contain an outbound network call? -/
def touchesNetwork (t : List Effect) : Bool :=
  t.any Effect.isNetwork

/-- Does a trace contain the descriptive missing-env-var message for
`name` (the exact string `require_env` prints)? -/
def logsMissingEnv (t : List Effect) (name : String) : Bool :=
  t.any fun e =>
    match e with
    | .logError m => m == "[ERROR] Missing required env var: " ++ name
    | _ => false

/-- A complete environment for concrete runs: both Amadeus credentials and
all five SMTP settings present, everything else left to its default. -/
def envFull : Env := fun name =>
  if name = "AMADEUS_CLIENT_ID" then some "id" else
  if name = "AMADEUS_CLIENT_SECRET" then some "secret" else
  if name = "SMTP_HOST" then some "smtp.example.org" else
  if name = "SMTP_PORT" then some "587" else
  if name = "SMTP_USER" then some "user@example.org" else
  if name = "SMTP_PASS" then some "pw" else
  if name = "RECIPIENT_EMAIL" then some "to@example.org" else
  none

/-- `envFull` with `SMTP_HOST` unset (a required value per the module
docstring). -/
def envNoHost : Env := fun name =>
  if name = "SMTP_HOST" then none else envFull name

/-- One well-formed inspiration record. -/
def goodItem : Option String × Option String × Option String :=
  (some "BCN", some "2025-09-01", some "2025-09-08")

/-- A fully successful world: one candidate, live price 79.40 (under the
default cap 80), no prior state, delivery succeeds. -/
def wAlert : World :=
  ⟨envFull, true, .ok [goodItem], fun _ => .priced (397 / 5), .missing,
    1700000000, true⟩

/-- `wAlert` but the SMTP delivery block raises. -/
def wSmtpFail : World :=
  { wAlert with smtpOk := false }

/-- `wAlert` but `SMTP_HOST` is unset. -/
def wNoHost : World :=
  { wAlert with env := envNoHost }

/-- `wAlert` but the state file holds `{}`: valid JSON whose shape is not
the persisted `{"alerts": {...}}` form. -/
def wBadState : World :=
  { wAlert with fileContent := .parsed (.obj []) }

/-- The ledger value a fresh run starts from. -/
def emptyLedger : Json :=
  .obj [("alerts", .obj [])]

/-- An in-memory state of the shape the program itself maintains: a dict
with an `"alerts"` dict whose values are numbers. -/
def ledgerShaped (j : Json) : Prop :=
  ∃ fields am, j = .obj fields ∧ alistFind fields "alerts" = some (.obj am) ∧
    ∀ kv ∈ am, ∃ q : ℚ, kv.2 = Json.num q

/-- Outcomes that are uncaught errors arising from the loaded state's
shape (dict subscription / `.get` / numeric use of a ledger value). -/
def stateShapeFatal : Outcome → Bool
  | .raised .keyError => true
  | .raised .typeError => true
  | .raised .attributeError => true
  | _ => false

/-- The four `int(os.getenv(...))` reads at lines 139-142 all parse (they
do for any environment that leaves them to their defaults). -/
def intConfigOk (env : Env) : Prop :=
  (pyParseInt (getenvD env "MAX_PRICE_EUR" "80")).isSome = true ∧
  (pyParseInt (getenvD env "DAYS_AHEAD" "180")).isSome = true ∧
  (pyParseInt (getenvD env "MAX_CANDIDATES" "8")).isSome = true ∧
  (pyParseInt (getenvD env "SLEEP_BETWEEN_MS" "300")).isSome = true

/-- `envFull` with `AMADEUS_CLIENT_ID` unset. -/
def envNoCid : Env := fun name =>
  if name = "AMADEUS_CLIENT_ID" then none else envFull name

/-- `envFull` with `AMADEUS_CLIENT_SECRET` unset. -/
def envNoSecret : Env := fun name =>
  if name = "AMADEUS_CLIENT_SECRET" then none else envFull name

/-- `wAlert` but the Amadeus client id is unset. -/
def wNoCid : World :=
  { wAlert with env := envNoCid }

/-- `wAlert` but the Amadeus client secret is unset. -/
def wNoSecret : World :=
  { wAlert with env := envNoSecret }

/-! ### Structural lemmas about the effect traces -/

theorem require_env_fst (env : Env) (n : String) :
    (require_env env n).1 = [] ∨
    (require_env env n).1 =
      [Effect.logError ("[ERROR] Missing required env var: " ++ n)] := by
  unfold require_env
  cases env n with
  | none => right; rfl
  | some v =>
    by_cases hv : v = ""
    · right; simp [hv]
    · left; simp [hv]

theorem require_env_missing (env : Env) (n : String)
    (h : truthy (env n) = false) :
    require_env env n =
      ([Effect.logError ("[ERROR] Missing required env var: " ++ n)], none) := by
  unfold require_env
  cases he : env n with
  | none => rfl
  | some v =>
    rw [he] at h
    simp only [truthy, Bool.not_eq_false', beq_iff_eq] at h
    simp [h]

theorem require_env_any (env : Env) (n : String) (F : Effect → Bool)
    (hF : ∀ m, F (.logError m) = false) :
    (require_env env n).1.any F = false := by
  rcases require_env_fst env n with h | h <;> simp [h, hF]

theorem get_token_any (w : World) (F : Effect → Bool)
    (hlog : ∀ m, F (.logError m) = false)
    (hnet : F .netTokenPost = false) :
    (get_token w).1.any F = false := by
  unfold get_token
  cases hr1 : require_env w.env "AMADEUS_CLIENT_ID" with
  | mk l1 o1 =>
    have hw1 : l1.any F = false := by
      have := require_env_any w.env "AMADEUS_CLIENT_ID" F hlog
      rw [hr1] at this; exact this
    cases o1 with
    | none => simpa using hw1
    | some v1 =>
      cases hr2 : require_env w.env "AMADEUS_CLIENT_SECRET" with
      | mk l2 o2 =>
        have hw2 : l2.any F = false := by
          have := require_env_any w.env "AMADEUS_CLIENT_SECRET" F hlog
          rw [hr2] at this; exact this
        cases o2 with
        | none => simp [List.any_append, hw1, hw2]
        | some v2 =>
          by_cases ht : w.tokenOk <;>
            simp [ht, List.any_append, hw1, hw2, hnet, hlog]

theorem send_email_any (w : World) (alerts : List Alert) (F : Effect → Bool)
    (hlog : ∀ m, F (.logError m) = false)
    (hsmtp : ∀ h p u r al, F (.smtpDeliver h p u r al) = false) :
    (send_email w alerts).1.any F = false := by
  unfold send_email
  cases hr1 : require_env w.env "SMTP_HOST" with
  | mk l1 o1 =>
  have hw1 : l1.any F = false := by
    have := require_env_any w.env "SMTP_HOST" F hlog
    rw [hr1] at this; exact this
  cases o1 with
  | none => simpa using hw1
  | some host =>
  cases hr2 : require_env w.env "SMTP_PORT" with
  | mk l2 o2 =>
  have hw2 : l2.any F = false := by
    have := require_env_any w.env "SMTP_PORT" F hlog
    rw [hr2] at this; exact this
  cases o2 with
  | none => simp [List.any_append, hw1, hw2]
  | some portStr =>
  cases hpp : pyParseInt portStr with
  | none => simp [hpp, List.any_append, hw1, hw2]
  | some port =>
  simp only [hpp]
  cases hr3 : require_env w.env "SMTP_USER" with
  | mk l3 o3 =>
  have hw3 : l3.any F = false := by
    have := require_env_any w.env "SMTP_USER" F hlog
    rw [hr3] at this; exact this
  cases o3 with
  | none => simp [List.any_append, hw1, hw2, hw3]
  | some user =>
  cases hr4 : require_env w.env "SMTP_PASS" with
  | mk l4 o4 =>
  have hw4 : l4.any F = false := by
    have := require_env_any w.env "SMTP_PASS" F hlog
    rw [hr4] at this; exact this
  cases o4 with
  | none => simp [List.any_append, hw1, hw2, hw3, hw4]
  | some pw =>
  cases hr5 : require_env w.env "RECIPIENT_EMAIL" with
  | mk l5 o5 =>
  have hw5 : l5.any F = false := by
    have := require_env_any w.env "RECIPIENT_EMAIL" F hlog
    rw [hr5] at this; exact this
  cases o5 with
  | none => simp [List.any_append, hw1, hw2, hw3, hw4, hw5]
  | some rcpt =>
    by_cases hs : w.smtpOk <;>
      simp [hs, List.any_append, hw1, hw2, hw3, hw4, hw5, hsmtp]

theorem candStep_any (p : Params) (o : Nat → OffersResult)
    (it : Option String × Option String × Option String) (i : ℕ)
    (acc : LoopAcc) (F : Effect → Bool)
    (hnet : ∀ a b c d, F (.netOffersGet a b c d) = false)
    (hwarn : ∀ a b c d, F (.logWarn a b c d) = false)
    (hsleep : ∀ m, F (.sleepMs m) = false) :
    ((candStep p o it i acc).1).trace.any F = acc.trace.any F := by
  obtain ⟨d?, dp?, rt?⟩ := it
  cases d? with
  | none => rfl
  | some dest =>
  cases dp? with
  | none => rfl
  | some dep =>
  cases rt? with
  | none => rfl
  | some ret =>
  by_cases hempty : dest = "" ∨ dep = "" ∨ ret = ""
  · simp [candStep, hempty]
  · simp only [candStep, if_neg hempty]
    cases o i with
    | reqError => simp [List.any_append, hnet, hwarn]
    | emptyData => simp [List.any_append, hnet, hsleep]
    | badPrice => simp [List.any_append, hnet, hsleep]
    | priced q =>
      by_cases hq : q ≤ (p.max_price : ℚ)
      · simp only [if_pos hq]
        cases stateAlertsGet acc.state (fingerprint p.origin dest dep ret q) with
        | error e => simp [List.any_append, hnet]
        | ok last =>
          by_cases hrec : p.now - last < 48 * 3600
          · simp [hrec, List.any_append, hnet, hsleep]
          · simp only [if_neg hrec]
            cases stateAlertsSet acc.state (fingerprint p.origin dest dep ret q) p.now with
            | error e => simp [List.any_append, hnet]
            | ok st => simp [List.any_append, hnet, hsleep]
      · simp [if_neg hq, List.any_append, hnet, hsleep]

theorem runCandidates_any (p : Params) (o : Nat → OffersResult)
    (l : List (Option String × Option String × Option String)) (i : ℕ)
    (acc : LoopAcc) (F : Effect → Bool)
    (hnet : ∀ a b c d, F (.netOffersGet a b c d) = false)
    (hwarn : ∀ a b c d, F (.logWarn a b c d) = false)
    (hsleep : ∀ m, F (.sleepMs m) = false) :
    ((runCandidates p o l i acc).1).trace.any F = acc.trace.any F := by
  induction l generalizing i acc with
  | nil => rfl
  | cons it rest ih =>
    unfold runCandidates
    cases hstep : candStep p o it i acc with
    | mk acc1 e? =>
      have h1 : acc1.trace.any F = acc.trace.any F := by
        have := candStep_any p o it i acc F hnet hwarn hsleep
        rw [hstep] at this; exact this
      cases e? with
      | some e => simpa using h1
      | none => simpa [ih] using (ih (i + 1) acc1).trans h1

theorem main_trace_any (w : World) (F : Effect → Bool)
    (hlog : ∀ m, F (.logError m) = false)
    (hinfo : ∀ m, F (.logInfo m) = false)
    (hnet1 : F .netTokenPost = false)
    (hnet2 : ∀ a b, F (.netInspirationGet a b) = false)
    (hnet3 : ∀ a b c d, F (.netOffersGet a b c d) = false)
    (hwarn : ∀ a b c d, F (.logWarn a b c d) = false)
    (hsleep : ∀ m, F (.sleepMs m) = false)
    (hsmtp : ∀ h p u r al, F (.smtpDeliver h p u r al) = false) :
    (main w).trace.any F = false := by
  unfold main
  cases pyParseInt (getenvD w.env "MAX_PRICE_EUR" "80") with
  | none => rfl
  | some max_price =>
  cases pyParseInt (getenvD w.env "DAYS_AHEAD" "180") with
  | none => rfl
  | some days =>
  cases pyParseInt (getenvD w.env "MAX_CANDIDATES" "8") with
  | none => rfl
  | some mc =>
  cases pyParseInt (getenvD w.env "SLEEP_BETWEEN_MS" "300") with
  | none => rfl
  | some sleep_ms =>
  have htok : (get_token w).1.any F = false := get_token_any w F hlog hnet1
  cases htk : get_token w with
  | mk tke tko =>
  rw [htk] at htok
  cases tko with
  | none => simpa [earlyResult] using htok
  | some u =>
  cases w.inspResult with
  | error e => simp [earlyResult, List.any_append, htok, hinfo, hnet2]
  | ok insp =>
  cases hr : runCandidates ⟨getenvD w.env "ORIGIN" "BER", max_price, sleep_ms, w.now⟩
      w.offersAt (pySlice mc insp) 0 ⟨load_state w.fileContent, [], 0, 0, []⟩ with
  | mk acc e? =>
  have hloop : acc.trace.any F = false := by
    have := runCandidates_any ⟨getenvD w.env "ORIGIN" "BER", max_price, sleep_ms, w.now⟩
      w.offersAt (pySlice mc insp) 0 ⟨load_state w.fileContent, [], 0, 0, []⟩ F hnet3 hwarn hsleep
    rw [hr] at this; simpa using this
  cases e? with
  | some e => simp [hr, List.any_append, htok, hinfo, hnet2, hloop]
  | none =>
    by_cases hal : acc.alerts = []
    · simp [hr, hal, List.any_append, htok, hinfo, hnet2, hloop]
    · have hsend : (send_email w acc.alerts).1.any F = false :=
        send_email_any w acc.alerts F hlog hsmtp
      simp [hr, hal, List.any_append, htok, hinfo, hnet2, hloop, hsend]

theorem truthy_eq_true (o : Option String) :
    truthy o = true ↔ ∃ v, o = some v ∧ v ≠ "" := by
  cases o with
  | none => simp [truthy]
  | some v => simp [truthy]

theorem require_env_of_truthy (env : Env) (n v : String)
    (he : env n = some v) (hv : v ≠ "") :
    require_env env n = ([], some v) := by
  unfold require_env
  rw [he]
  simp [hv]

theorem get_token_missing_cid (w : World)
    (h : truthy (w.env "AMADEUS_CLIENT_ID") = false) :
    get_token w =
      ([Effect.logError "[ERROR] Missing required env var: AMADEUS_CLIENT_ID"],
        none) := by
  unfold get_token
  rw [require_env_missing w.env _ h]
  rfl

theorem get_token_missing_secret (w : World)
    (h1 : truthy (w.env "AMADEUS_CLIENT_ID") = true)
    (h2 : truthy (w.env "AMADEUS_CLIENT_SECRET") = false) :
    get_token w =
      ([Effect.logError "[ERROR] Missing required env var: AMADEUS_CLIENT_SECRET"],
        none) := by
  obtain ⟨v, hv, hne⟩ := (truthy_eq_true _).1 h1
  unfold get_token
  rw [require_env_of_truthy w.env _ v hv hne, require_env_missing w.env _ h2]
  rfl

/-! ### C1 -/

/-- C1: the spec says the full ledger is persisted to the state file
exactly once at the end of any run that generated a new alert. The code
never persists it: `save_state` is defined but never called, so no run —
in particular the concrete run below, which generates one alert and
finishes normally — ever emits a state-file write. -/
theorem c1_ledger_never_persisted :
    (∀ w : World, writesState (main w).trace = false) ∧
    (main wAlert).alerts.length = 1 ∧ (main wAlert).outcome = .finished := by
  refine ⟨fun w => ?_, ?_, ?_⟩
  · exact main_trace_any w Effect.isStateWrite
      (fun _ => rfl) (fun _ => rfl) rfl (fun _ _ => rfl) (fun _ _ _ _ => rfl)
      (fun _ _ _ _ => rfl) (fun _ => rfl) (fun _ _ _ _ _ => rfl)
  · rfl
  · rfl

/-! ### C2 -/

/-- C2: the spec says a notification-delivery failure is logged and does
not terminate the run or prevent ledger persistence. In the code the
`send_email` call at line 204 is not guarded: in the concrete run below
one alert is generated and the SMTP block fails, whereupon the run dies
with the uncaught exception, nothing is printed about the failure, and
(as always) nothing is persisted. -/
theorem c2_send_failure_kills_run :
    (main wSmtpFail).alerts.length = 1 ∧
    (main wSmtpFail).outcome = .raised .smtpError ∧
    (main wSmtpFail).trace.any Effect.isErrorLog = false ∧
    writesState (main wSmtpFail).trace = false :=
  ⟨rfl, rfl, rfl, rfl⟩

/-! ### C3 -/

/-- C3 (counterexample): `SMTP_HOST` is a required configuration value
(module docstring, lines 8-11), yet in this run where it is the only
missing value the trace contains outbound network calls and the fatal
exit happens only at email time — not before any network call. -/
theorem c3_counterexample_smtp_after_network :
    wNoHost.env "SMTP_HOST" = none ∧
    touchesNetwork (main wNoHost).trace = true ∧
    (main wNoHost).outcome = .exited 1 ∧
    logsMissingEnv (main wNoHost).trace "SMTP_HOST" = true :=
  ⟨rfl, rfl, rfl, rfl⟩

/-- C3 (amended): only the two Amadeus credentials are checked before any
network call: when either is missing (and the integer config parses, as
it does by default) the run exits 1 immediately with exactly the one
descriptive message and an empty effect trace otherwise. The SMTP
settings are checked only inside `send_email` — after the search network
calls, and only in runs that generated alerts — where a missing value
also exits 1 with a descriptive message. -/
theorem c3_amadeus_checked_before_network :
    (∀ w : World, intConfigOk w.env →
      truthy (w.env "AMADEUS_CLIENT_ID") = false →
      main w = earlyResult
        [Effect.logError "[ERROR] Missing required env var: AMADEUS_CLIENT_ID"]
        (.exited 1)) ∧
    (∀ w : World, intConfigOk w.env →
      truthy (w.env "AMADEUS_CLIENT_ID") = true →
      truthy (w.env "AMADEUS_CLIENT_SECRET") = false →
      main w = earlyResult
        [Effect.logError "[ERROR] Missing required env var: AMADEUS_CLIENT_SECRET"]
        (.exited 1)) ∧
    ((main wNoHost).outcome = .exited 1 ∧
      touchesNetwork (main wNoHost).trace = true ∧
      logsMissingEnv (main wNoHost).trace "SMTP_HOST" = true) := by
  refine ⟨fun w hcfg hcid => ?_, fun w hcfg hcid hsec => ?_, rfl, rfl, rfl⟩
  · obtain ⟨h1, h2, h3, h4⟩ := hcfg
    obtain ⟨mp, hmp⟩ := Option.isSome_iff_exists.1 h1
    obtain ⟨da, hda⟩ := Option.isSome_iff_exists.1 h2
    obtain ⟨mc, hmc⟩ := Option.isSome_iff_exists.1 h3
    obtain ⟨sl, hsl⟩ := Option.isSome_iff_exists.1 h4
    unfold main
    rw [hmp, hda, hmc, hsl, get_token_missing_cid w hcid]
  · obtain ⟨h1, h2, h3, h4⟩ := hcfg
    obtain ⟨mp, hmp⟩ := Option.isSome_iff_exists.1 h1
    obtain ⟨da, hda⟩ := Option.isSome_iff_exists.1 h2
    obtain ⟨mc, hmc⟩ := Option.isSome_iff_exists.1 h3
    obtain ⟨sl, hsl⟩ := Option.isSome_iff_exists.1 h4
    unfold main
    rw [hmp, hda, hmc, hsl, get_token_missing_secret w hcid hsec]

/-- Witness for `c3_amadeus_checked_before_network`: both general parts
applied at concrete worlds (client id unset, resp. client secret unset)
with every hypothesis discharged there. -/
theorem c3_amadeus_checked_before_network_witness :
    (intConfigOk wNoCid.env ∧
      main wNoCid = earlyResult
        [Effect.logError "[ERROR] Missing required env var: AMADEUS_CLIENT_ID"]
        (.exited 1)) ∧
    (intConfigOk wNoSecret.env ∧
      main wNoSecret = earlyResult
        [Effect.logError "[ERROR] Missing required env var: AMADEUS_CLIENT_SECRET"]
        (.exited 1)) :=
  ⟨⟨⟨rfl, rfl, rfl, rfl⟩,
    c3_amadeus_checked_before_network.1 wNoCid ⟨rfl, rfl, rfl, rfl⟩ rfl⟩,
   ⟨⟨rfl, rfl, rfl, rfl⟩,
    c3_amadeus_checked_before_network.2.1 wNoSecret ⟨rfl, rfl, rfl, rfl⟩ rfl rfl⟩⟩

/-! ### Ledger-shape invariant (for C4) -/

theorem alistFind_mem {l : List (String × Json)} {k : String} {v : Json}
    (h : alistFind l k = some v) : (k, v) ∈ l := by
  induction l with
  | nil => simp [alistFind] at h
  | cons kv rest ih =>
    obtain ⟨k1, v1⟩ := kv
    by_cases hk : k1 = k
    · subst hk
      simp [alistFind] at h
      simp [h]
    · simp [alistFind, hk] at h
      exact List.mem_cons_of_mem _ (ih h)

theorem alistFind_set_same (l : List (String × Json)) (k : String) (v : Json) :
    alistFind (alistSet l k v) k = some v := by
  induction l with
  | nil => simp [alistSet, alistFind]
  | cons kv rest ih =>
    obtain ⟨k1, v1⟩ := kv
    by_cases hk : k1 = k
    · subst hk; simp [alistSet, alistFind]
    · simp [alistSet, alistFind, hk, ih]

theorem alistSet_mem {l : List (String × Json)} {k : String} {v : Json}
    {kv : String × Json} (h : kv ∈ alistSet l k v) : kv ∈ l ∨ kv = (k, v) := by
  induction l with
  | nil => simp [alistSet] at h; simp [h]
  | cons kv1 rest ih =>
    obtain ⟨k1, v1⟩ := kv1
    by_cases hk : k1 = k
    · subst hk
      simp only [alistSet, if_pos rfl] at h
      rcases List.mem_cons.1 h with h | h
      · right; simpa using h
      · left; exact List.mem_cons_of_mem _ h
    · simp only [alistSet, if_neg hk] at h
      rcases List.mem_cons.1 h with h | h
      · left; simp [h]
      · rcases ih h with h | h
        · left; exact List.mem_cons_of_mem _ h
        · right; exact h

theorem stateAlertsGet_shaped {s : Json} (hs : ledgerShaped s) (k : String) :
    ∃ q, stateAlertsGet s k = .ok q := by
  obtain ⟨fields, am, rfl, hfind, hvals⟩ := hs
  cases hk : alistFind am k with
  | none => exact ⟨0, by simp [stateAlertsGet, hfind, hk]⟩
  | some v =>
    obtain ⟨q, hq⟩ := hvals _ (alistFind_mem hk)
    exact ⟨q, by simp [stateAlertsGet, hfind, hk, show v = Json.num q from hq, jsonNum]⟩

theorem stateAlertsSet_shaped {s : Json} (hs : ledgerShaped s) (k : String) (t : ℚ) :
    ∃ s2, stateAlertsSet s k t = .ok s2 ∧ ledgerShaped s2 := by
  obtain ⟨fields, am, rfl, hfind, hvals⟩ := hs
  refine ⟨Json.obj (alistSet fields "alerts" (Json.obj (alistSet am k (Json.num t)))),
    by simp [stateAlertsSet, hfind], ?_⟩
  refine ⟨_, _, rfl, alistFind_set_same fields "alerts" _, ?_⟩
  intro kv hkv
  rcases alistSet_mem hkv with h | h
  · exact hvals _ h
  · exact ⟨t, by simp [h]⟩

theorem candStep_shape (p : Params) (o : Nat → OffersResult)
    (it : Option String × Option String × Option String) (i : ℕ)
    (acc : LoopAcc) (hs : ledgerShaped acc.state) :
    (candStep p o it i acc).2 = none ∧
    ledgerShaped ((candStep p o it i acc).1).state := by
  obtain ⟨d?, dp?, rt?⟩ := it
  cases d? with
  | none => exact ⟨by trivial, hs⟩
  | some dest =>
  cases dp? with
  | none => exact ⟨by trivial, hs⟩
  | some dep =>
  cases rt? with
  | none => exact ⟨by trivial, hs⟩
  | some ret =>
  by_cases hempty : dest = "" ∨ dep = "" ∨ ret = ""
  · simp only [candStep, if_pos hempty]
    exact ⟨by trivial, hs⟩
  · simp only [candStep, if_neg hempty]
    cases ho : o i with
    | reqError => exact ⟨by trivial, hs⟩
    | emptyData => exact ⟨by trivial, hs⟩
    | badPrice => exact ⟨by trivial, hs⟩
    | priced q =>
      by_cases hq : q ≤ (p.max_price : ℚ)
      · simp only [if_pos hq]
        obtain ⟨q0, hget⟩ :=
          stateAlertsGet_shaped hs (fingerprint p.origin dest dep ret q)
        rw [hget]
        by_cases hrec : p.now - q0 < 48 * 3600
        · simp only [if_pos hrec]
          exact ⟨by trivial, hs⟩
        · simp only [if_neg hrec]
          obtain ⟨s2, hset, hs2⟩ :=
            stateAlertsSet_shaped hs (fingerprint p.origin dest dep ret q) p.now
          rw [hset]
          exact ⟨by trivial, hs2⟩
      · simp only [if_neg hq]
        exact ⟨by trivial, hs⟩

theorem runCandidates_shape (p : Params) (o : Nat → OffersResult)
    (l : List (Option String × Option String × Option String)) (i : ℕ)
    (acc : LoopAcc) (hs : ledgerShaped acc.state) :
    (runCandidates p o l i acc).2 = none ∧
    ledgerShaped ((runCandidates p o l i acc).1).state := by
  induction l generalizing i acc with
  | nil => exact ⟨rfl, hs⟩
  | cons it rest ih =>
    unfold runCandidates
    obtain ⟨hnone, hshape⟩ := candStep_shape p o it i acc hs
    cases hstep : candStep p o it i acc with
    | mk acc1 e? =>
      rw [hstep] at hnone hshape
      cases e? with
      | some e => exact absurd hnone (by simp)
      | none => exact ih (i + 1) acc1 hshape

theorem send_email_not_stateFatal (w : World) (alerts : List Alert) :
    stateShapeFatal (send_email w alerts).2 = false := by
  unfold send_email
  cases hr1 : require_env w.env "SMTP_HOST" with
  | mk l1 o1 =>
  cases o1 with
  | none => simp [hr1, stateShapeFatal]
  | some host =>
  cases hr2 : require_env w.env "SMTP_PORT" with
  | mk l2 o2 =>
  cases o2 with
  | none => simp [hr1, hr2, stateShapeFatal]
  | some portStr =>
  cases hpp : pyParseInt portStr with
  | none => simp [hr1, hr2, hpp, stateShapeFatal]
  | some port =>
  cases hr3 : require_env w.env "SMTP_USER" with
  | mk l3 o3 =>
  cases o3 with
  | none => simp [hr1, hr2, hpp, hr3, stateShapeFatal]
  | some user =>
  cases hr4 : require_env w.env "SMTP_PASS" with
  | mk l4 o4 =>
  cases o4 with
  | none => simp [hr1, hr2, hpp, hr3, hr4, stateShapeFatal]
  | some pw =>
  cases hr5 : require_env w.env "RECIPIENT_EMAIL" with
  | mk l5 o5 =>
  cases o5 with
  | none => simp [hr1, hr2, hpp, hr3, hr4, hr5, stateShapeFatal]
  | some rcpt =>
    by_cases hs : w.smtpOk <;>
      simp [hr1, hr2, hpp, hr3, hr4, hr5, hs, stateShapeFatal]

theorem main_not_stateFatal (w : World)
    (hs : ledgerShaped (load_state w.fileContent)) :
    stateShapeFatal (main w).outcome = false := by
  unfold main
  cases pyParseInt (getenvD w.env "MAX_PRICE_EUR" "80") with
  | none => rfl
  | some max_price =>
  cases pyParseInt (getenvD w.env "DAYS_AHEAD" "180") with
  | none => rfl
  | some days =>
  cases pyParseInt (getenvD w.env "MAX_CANDIDATES" "8") with
  | none => rfl
  | some mc =>
  cases pyParseInt (getenvD w.env "SLEEP_BETWEEN_MS" "300") with
  | none => rfl
  | some sleep_ms =>
  cases htk : get_token w with
  | mk tke tko =>
  cases tko with
  | none => rfl
  | some u =>
  cases w.inspResult with
  | error e => rfl
  | ok insp =>
  have hloop := runCandidates_shape
    ⟨getenvD w.env "ORIGIN" "BER", max_price, sleep_ms, w.now⟩ w.offersAt
    (pySlice mc insp) 0 ⟨load_state w.fileContent, [], 0, 0, []⟩ hs
  cases hr : runCandidates ⟨getenvD w.env "ORIGIN" "BER", max_price, sleep_ms, w.now⟩
      w.offersAt (pySlice mc insp) 0 ⟨load_state w.fileContent, [], 0, 0, []⟩ with
  | mk acc e? =>
  rw [hr] at hloop
  cases e? with
  | some e => exact absurd hloop.1 (by simp)
  | none =>
    by_cases hal : acc.alerts = []
    · simp [hr, hal, stateShapeFatal]
    · simp [hr, hal, send_email_not_stateFatal]

theorem main_congr_fileContent (env : Env) (tokenOk : Bool)
    (inspResult : Except Unit (List (Option String × Option String × Option String)))
    (offersAt : Nat → OffersResult) (f1 f2 : StateFile) (now : ℚ) (smtpOk : Bool)
    (h : load_state f1 = load_state f2) :
    main ⟨env, tokenOk, inspResult, offersAt, f1, now, smtpOk⟩ =
    main ⟨env, tokenOk, inspResult, offersAt, f2, now, smtpOk⟩ := by
  unfold main
  dsimp only
  rw [show get_token ⟨env, tokenOk, inspResult, offersAt, f1, now, smtpOk⟩
        = get_token ⟨env, tokenOk, inspResult, offersAt, f2, now, smtpOk⟩ from rfl,
      show send_email ⟨env, tokenOk, inspResult, offersAt, f1, now, smtpOk⟩
        = send_email ⟨env, tokenOk, inspResult, offersAt, f2, now, smtpOk⟩ from rfl,
      h]

/-! ### C4 -/

/-- C4 (counterexample): a state file containing `{}` — valid JSON whose
persisted shape is corrupt (no `"alerts"` mapping) — is returned as-is by
`load_state`, and the run then dies with an uncaught `KeyError` when the
first candidate under the cap reaches the ledger lookup. Loading or using
corrupt state is therefore not "never a fatal error". -/
theorem c4_counterexample_parsed_corrupt_state_fatal :
    wBadState.fileContent = .parsed (.obj []) ∧
    (main wBadState).outcome = .raised .keyError :=
  ⟨rfl, rfl⟩

/-- C4 (amended): a missing state file, or one whose text `json.loads`
rejects, is treated as the empty ledger — the run is identical to one
whose state file holds a well-formed empty ledger — and such a run never
dies of a state-shape error (`KeyError` / `TypeError` /
`AttributeError`). A file that parses to JSON of the wrong shape, however,
is used as-is and can be fatal (see the counterexample). -/
theorem c4_missing_or_unreadable_state_is_empty_ledger (w : World)
    (h : w.fileContent = .missing ∨ w.fileContent = .unreadable) :
    main w = main { w with fileContent := .parsed emptyLedger } ∧
    stateShapeFatal (main w).outcome = false := by
  obtain ⟨env, tokenOk, inspResult, offersAt, f, now, smtpOk⟩ := w
  have hload : load_state f = emptyLedger := by
    rcases h with h | h <;> simp only at h <;> rw [h] <;> rfl
  constructor
  · exact main_congr_fileContent env tokenOk inspResult offersAt f
      (.parsed emptyLedger) now smtpOk (by rw [hload]; rfl)
  · exact main_not_stateFatal _ (by
      rw [show (⟨env, tokenOk, inspResult, offersAt, f, now, smtpOk⟩ : World).fileContent
            = f from rfl, hload]
      exact ⟨_, _, rfl, rfl, by simp⟩)

/-- Witness for `c4_missing_or_unreadable_state_is_empty_ledger` at the
concrete world `wAlert`, whose state file is missing. -/
theorem c4_missing_or_unreadable_state_is_empty_ledger_witness :
    main wAlert = main { wAlert with fileContent := .parsed emptyLedger } ∧
    stateShapeFatal (main wAlert).outcome = false :=
  c4_missing_or_unreadable_state_is_empty_ledger wAlert (Or.inl rfl)

/-! ### Decimal rendering is injective (for C6) -/

theorem digitChar_lt_ten_inj :
    ∀ a < 10, ∀ b < 10, Nat.digitChar a = Nat.digitChar b → a = b := by
  decide

theorem digitChar_ne_dash : ∀ d < 10, Nat.digitChar d ≠ '-' := by
  decide

theorem map_digitChar_inj : ∀ l1 l2 : List ℕ, (∀ x ∈ l1, x < 10) →
    (∀ x ∈ l2, x < 10) → l1.map Nat.digitChar = l2.map Nat.digitChar →
    l1 = l2 := by
  intro l1
  induction l1 with
  | nil =>
    intro l2 _ _ h
    cases l2 with
    | nil => rfl
    | cons b t2 => simp at h
  | cons a t ih =>
    intro l2 h1 h2 h
    cases l2 with
    | nil => simp at h
    | cons b t2 =>
      simp only [List.map_cons, List.cons.injEq] at h
      have hab : a = b := digitChar_lt_ten_inj a (h1 a (by simp)) b (h2 b (by simp)) h.1
      rw [hab, ih t2 (fun x hx => h1 x (by simp [hx])) (fun x hx => h2 x (by simp [hx])) h.2]

theorem natStr_ne_zero_str {n : ℕ} (hn : n ≠ 0) : natStr n ≠ "0" := by
  unfold natStr
  rw [if_neg hn]
  intro h
  have hdata : ((Nat.digits 10 n).map Nat.digitChar).reverse = ['0'] :=
    congrArg String.data h
  have hmap : (Nat.digits 10 n).map Nat.digitChar = ['0'] := by
    have := congrArg List.reverse hdata
    simpa using this
  cases hd : Nat.digits 10 n with
  | nil => rw [hd] at hmap; simp at hmap
  | cons d t =>
    rw [hd] at hmap
    simp only [List.map_cons, List.cons.injEq] at hmap
    have hlt : d < 10 :=
      Nat.digits_lt_base (by norm_num) (by rw [hd]; exact List.mem_cons_self _ _)
    have hd0 : d = 0 :=
      digitChar_lt_ten_inj d hlt 0 (by norm_num) (by rw [hmap.1]; rfl)
    have ht : t = [] := by
      cases t with
      | nil => rfl
      | cons x xs => simp at hmap
    have hofd := Nat.ofDigits_digits 10 n
    rw [hd, ht, hd0] at hofd
    simp [Nat.ofDigits] at hofd
    exact hn hofd.symm

theorem natStr_inj {m n : ℕ} (h : natStr m = natStr n) : m = n := by
  by_cases hm : m = 0 <;> by_cases hn : n = 0
  · rw [hm, hn]
  · exact absurd h.symm (by rw [hm]; exact natStr_ne_zero_str hn)
  · exact absurd h (by rw [hn]; exact natStr_ne_zero_str hm)
  · unfold natStr at h
    rw [if_neg hm, if_neg hn] at h
    have hdata : ((Nat.digits 10 m).map Nat.digitChar).reverse =
        ((Nat.digits 10 n).map Nat.digitChar).reverse := congrArg String.data h
    have hmap := List.reverse_injective hdata
    have hdig := map_digitChar_inj _ _
      (fun x hx => Nat.digits_lt_base (by norm_num) hx)
      (fun x hx => Nat.digits_lt_base (by norm_num) hx) hmap
    exact Nat.digits.injective 10 hdig

theorem natStr_no_dash (n : ℕ) : '-' ∉ (natStr n).data := by
  unfold natStr
  by_cases h : n = 0
  · rw [if_pos h]
    decide
  · rw [if_neg h]
    show '-' ∉ ((Nat.digits 10 n).map Nat.digitChar).reverse
    intro hc
    rw [List.mem_reverse] at hc
    obtain ⟨d, hd, hdc⟩ := List.mem_map.1 hc
    exact digitChar_ne_dash d (Nat.digits_lt_base (by norm_num) hd) hdc

theorem intStr_inj {a b : ℤ} (h : intStr a = intStr b) : a = b := by
  unfold intStr at h
  by_cases ha : a < 0 <;> by_cases hb : b < 0
  · rw [if_pos ha, if_pos hb] at h
    have hdata : "-".data ++ (natStr a.natAbs).data =
        "-".data ++ (natStr b.natAbs).data := congrArg String.data h
    have habs : a.natAbs = b.natAbs :=
      natStr_inj (String.ext (List.append_cancel_left hdata))
    omega
  · rw [if_pos ha, if_neg hb] at h
    exfalso
    have hmem : '-' ∈ ("-" ++ natStr a.natAbs).data :=
      List.mem_append_left _ (by decide)
    rw [h] at hmem
    exact natStr_no_dash _ hmem
  · rw [if_neg ha, if_pos hb] at h
    exfalso
    have hmem : '-' ∈ ("-" ++ natStr b.natAbs).data :=
      List.mem_append_left _ (by decide)
    rw [← h] at hmem
    exact natStr_no_dash _ hmem
  · rw [if_neg ha, if_neg hb] at h
    have := natStr_inj h
    omega

theorem append_right_inj (s : String) {t1 t2 : String}
    (h : s ++ t1 = s ++ t2) : t1 = t2 := by
  have hdata : s.data ++ t1.data = s.data ++ t2.data := congrArg String.data h
  exact String.ext (List.append_cancel_left hdata)

/-! ### C6 -/

/-- C6: the fingerprint of line 186 for two candidates agreeing on
(origin, destination, departureDate, returnDate) is equal exactly when
the two live prices truncate (Python `int`, toward zero) to the same
integer; and the price component is truncated, not rounded: 79.5
contributes 79 (any rounding would give 80), and -79.5 contributes -79
(flooring would give -80). -/
theorem c6_fingerprint_determined_by_truncated_price :
    (∀ origin dest dep ret : String, ∀ p1 p2 : ℚ,
      fingerprint origin dest dep ret p1 = fingerprint origin dest dep ret p2 ↔
        pyint p1 = pyint p2) ∧
    pyint (159 / 2 : ℚ) = 79 ∧ pyint (-(159 / 2) : ℚ) = -79 := by
  refine ⟨fun origin dest dep ret p1 p2 => ⟨fun h => ?_, fun h => ?_⟩, by decide, by decide⟩
  · unfold fingerprint at h
    exact intStr_inj
      (append_right_inj (origin ++ "-" ++ dest ++ "-" ++ dep ++ "-" ++ ret ++ "-") h)
  · unfold fingerprint
    rw [h]

/-! ### Ledger read/write lemmas (for C5, C7, C8) -/

theorem alistFind_set_other (l : List (String × Json)) (k k2 : String)
    (v : Json) (hne : k2 ≠ k) :
    alistFind (alistSet l k v) k2 = alistFind l k2 := by
  induction l with
  | nil => simp [alistSet, alistFind, Ne.symm hne]
  | cons kv rest ih =>
    obtain ⟨k1, v1⟩ := kv
    by_cases hk : k1 = k
    · subst hk
      simp only [alistSet, if_pos rfl]
      by_cases hk2 : k1 = k2
      · exact absurd hk2.symm hne
      · simp [alistFind, hk2]
    · simp only [alistSet, if_neg hk]
      by_cases hk2 : k1 = k2
      · simp [alistFind, hk2]
      · simp [alistFind, hk2, ih]

theorem set_ok_of_get_ok {s : Json} {k : String} {last : ℚ}
    (h : stateAlertsGet s k = .ok last) (t : ℚ) :
    ∃ fields am, s = Json.obj fields ∧
      alistFind fields "alerts" = some (Json.obj am) ∧
      stateAlertsSet s k t =
        .ok (Json.obj (alistSet fields "alerts" (Json.obj (alistSet am k (Json.num t))))) := by
  cases s with
  | obj fields =>
    cases hf : alistFind fields "alerts" with
    | none => rw [stateAlertsGet] at h; rw [hf] at h; exact absurd h (by simp)
    | some v =>
      cases v with
      | obj am =>
        exact ⟨fields, am, rfl, hf, by simp [stateAlertsSet, hf]⟩
      | null => rw [stateAlertsGet] at h; rw [hf] at h; exact absurd h (by simp)
      | bool b => rw [stateAlertsGet] at h; rw [hf] at h; exact absurd h (by simp)
      | num q => rw [stateAlertsGet] at h; rw [hf] at h; exact absurd h (by simp)
      | str s2 => rw [stateAlertsGet] at h; rw [hf] at h; exact absurd h (by simp)
      | arr xs => rw [stateAlertsGet] at h; rw [hf] at h; exact absurd h (by simp)
  | null => exact absurd h (by simp [stateAlertsGet])
  | bool b => exact absurd h (by simp [stateAlertsGet])
  | num q => exact absurd h (by simp [stateAlertsGet])
  | str s2 => exact absurd h (by simp [stateAlertsGet])
  | arr xs => exact absurd h (by simp [stateAlertsGet])

theorem get_after_set_same (fields am : List (String × Json)) (k : String) (t : ℚ)
    (_hf : alistFind fields "alerts" = some (Json.obj am)) :
    stateAlertsGet
      (Json.obj (alistSet fields "alerts" (Json.obj (alistSet am k (Json.num t))))) k =
      .ok t := by
  simp [stateAlertsGet, alistFind_set_same, jsonNum]

theorem get_after_set_other (fields am : List (String × Json)) (k k2 : String) (t : ℚ)
    (hf : alistFind fields "alerts" = some (Json.obj am)) (hne : k2 ≠ k) :
    stateAlertsGet
      (Json.obj (alistSet fields "alerts" (Json.obj (alistSet am k (Json.num t))))) k2 =
      stateAlertsGet (Json.obj fields) k2 := by
  simp [stateAlertsGet, alistFind_set_same, alistFind_set_other _ _ _ _ hne, hf]

/-! ### C5 -/

/-- C5: inside the loop body (lines 185-198), for a candidate that has
all fields, a live price, and passes the cap check, and with the clock at
any real Unix time (at least 48 h after the epoch — `time.time()` always
is): if its fingerprint is in the ledger with `now - lastAlerted` under
the 48-hour window, the candidate is skipped (alerts and ledger
untouched); otherwise — fingerprint absent, or stale — it is appended to
the alert batch and the ledger entry for the fingerprint is set to `now`.
(The code treats an absent fingerprint as `lastAlerted = 0` via
`.get(key, 0)`, which coincides with the claim whenever `now` is at least
the window, i.e. on any clock after 1970-01-03.) -/
theorem c5_suppression_window_iff
    (p : Params) (o : Nat → OffersResult) (dest dep ret : String) (i : ℕ)
    (acc : LoopAcc) (q : ℚ) (fields am : List (String × Json))
    (hdest : dest ≠ "") (hdep : dep ≠ "") (hret : ret ≠ "")
    (ho : o i = .priced q) (hq : q ≤ (p.max_price : ℚ))
    (hstate : acc.state = Json.obj fields)
    (hfind : alistFind fields "alerts" = some (Json.obj am))
    (hvals : ∀ kv ∈ am, ∃ x : ℚ, kv.2 = Json.num x)
    (hclock : (48 * 3600 : ℚ) ≤ p.now) :
    ((∃ last : ℚ,
        alistFind am (fingerprint p.origin dest dep ret q) = some (Json.num last) ∧
        p.now - last < 48 * 3600) →
      (candStep p o (some dest, some dep, some ret) i acc).1.alerts = acc.alerts ∧
      (candStep p o (some dest, some dep, some ret) i acc).1.state = acc.state) ∧
    (¬ (∃ last : ℚ,
        alistFind am (fingerprint p.origin dest dep ret q) = some (Json.num last) ∧
        p.now - last < 48 * 3600) →
      (candStep p o (some dest, some dep, some ret) i acc).1.alerts =
        acc.alerts ++ [⟨p.origin, dest, dep, ret, q⟩] ∧
      stateAlertsGet (candStep p o (some dest, some dep, some ret) i acc).1.state
        (fingerprint p.origin dest dep ret q) = .ok p.now) := by
  have hne : ¬(dest = "" ∨ dep = "" ∨ ret = "") := by simp [hdest, hdep, hret]
  cases hf : alistFind am (fingerprint p.origin dest dep ret q) with
  | some v =>
    obtain ⟨x, hx⟩ := hvals _ (alistFind_mem hf)
    have hx' : v = Json.num x := hx
    have hget : stateAlertsGet acc.state (fingerprint p.origin dest dep ret q) = .ok x := by
      simp [stateAlertsGet, hstate, hfind, hf, hx', jsonNum]
    constructor
    · rintro ⟨last, hl, hrec⟩
      have hxlast : x = last := by
        rw [hx'] at hl
        simpa using hl
      subst hxlast
      simp only [candStep, if_neg hne, ho, if_pos hq, hget, if_pos hrec]
      exact ⟨trivial, trivial⟩
    · intro hnot
      have hrec : ¬ (p.now - x < 48 * 3600) := fun hcon =>
        hnot ⟨x, by rw [hx'], hcon⟩
      rw [hstate] at hget
      have hsets : stateAlertsSet (Json.obj fields)
          (fingerprint p.origin dest dep ret q) p.now =
          .ok (Json.obj (alistSet fields "alerts"
            (Json.obj (alistSet am (fingerprint p.origin dest dep ret q)
              (Json.num p.now))))) := by
        simp [stateAlertsSet, hfind]
      simp [candStep, if_neg hne, ho, if_pos hq, hstate, hget, if_neg hrec, hsets,
        get_after_set_same fields am (fingerprint p.origin dest dep ret q) p.now hfind]
  | none =>
    have hget : stateAlertsGet acc.state (fingerprint p.origin dest dep ret q) = .ok 0 := by
      simp [stateAlertsGet, hstate, hfind, hf]
    have hrec : ¬ (p.now - 0 < 48 * 3600) := by
      intro hcon
      rw [sub_zero] at hcon
      linarith
    constructor
    · rintro ⟨last, hl, _⟩
      exact absurd hl (by simp)
    · intro _
      rw [hstate] at hget
      have hrec2 : ¬ p.now < 48 * 3600 := by linarith
      have hsets : stateAlertsSet (Json.obj fields)
          (fingerprint p.origin dest dep ret q) p.now =
          .ok (Json.obj (alistSet fields "alerts"
            (Json.obj (alistSet am (fingerprint p.origin dest dep ret q)
              (Json.num p.now))))) := by
        simp [stateAlertsSet, hfind]
      simp [candStep, if_neg hne, ho, if_pos hq, hstate, hget, if_neg hrec, hrec2, hsets,
        get_after_set_same fields am (fingerprint p.origin dest dep ret q) p.now hfind]

/-- Witness for `c5_suppression_window_iff`: the loop body applied to a
fresh ledger at a realistic clock, with every hypothesis discharged. -/
theorem c5_suppression_window_iff_witness :
    (¬ (∃ last : ℚ,
        alistFind [] (fingerprint "BER" "BCN" "2025-09-01" "2025-09-08" 79) =
          some (Json.num last) ∧ (1700000000 : ℚ) - last < 48 * 3600)) ∧
    ((candStep ⟨"BER", 80, 300, 1700000000⟩ (fun _ => .priced 79)
        (some "BCN", some "2025-09-01", some "2025-09-08") 0
        ⟨emptyLedger, [], 0, 0, []⟩).1.alerts =
      [] ++ [⟨"BER", "BCN", "2025-09-01", "2025-09-08", 79⟩] ∧
      stateAlertsGet (candStep ⟨"BER", 80, 300, 1700000000⟩ (fun _ => .priced 79)
        (some "BCN", some "2025-09-01", some "2025-09-08") 0
        ⟨emptyLedger, [], 0, 0, []⟩).1.state
        (fingerprint "BER" "BCN" "2025-09-01" "2025-09-08" 79) = .ok 1700000000) := by
  have hnot : ¬ (∃ last : ℚ,
      alistFind [] (fingerprint "BER" "BCN" "2025-09-01" "2025-09-08" 79) =
        some (Json.num last) ∧ (1700000000 : ℚ) - last < 48 * 3600) := by
    rintro ⟨last, hl, _⟩
    exact absurd hl (by simp [alistFind])
  refine ⟨hnot, ?_⟩
  exact (c5_suppression_window_iff ⟨"BER", 80, 300, 1700000000⟩ (fun _ => .priced 79)
    "BCN" "2025-09-01" "2025-09-08" 0 ⟨emptyLedger, [], 0, 0, []⟩ 79
    [("alerts", Json.obj [])] []
    (by decide) (by decide) (by decide) rfl (by norm_num) rfl rfl
    (by simp) (by norm_num)).2 hnot

/-! ### C7 -/

/-- C7: the price gate at line 185 is `live_total <= max_price`. A live
price exactly equal to the cap passes the gate, and (when the fingerprint
is not freshly suppressed) the candidate is appended to the alert batch;
a live price one cent above the cap takes the else path: the candidate is
excluded from the batch and the ledger is untouched, regardless of the
ledger's content. -/
theorem c7_cap_boundary
    (p : Params) (o : Nat → OffersResult) (dest dep ret : String) (i : ℕ)
    (acc : LoopAcc) (last : ℚ)
    (hdest : dest ≠ "") (hdep : dep ≠ "") (hret : ret ≠ "") :
    (o i = .priced (p.max_price : ℚ) →
      stateAlertsGet acc.state
        (fingerprint p.origin dest dep ret (p.max_price : ℚ)) = .ok last →
      ¬ (p.now - last < 48 * 3600) →
      (candStep p o (some dest, some dep, some ret) i acc).1.alerts =
        acc.alerts ++ [⟨p.origin, dest, dep, ret, (p.max_price : ℚ)⟩] ∧
      (candStep p o (some dest, some dep, some ret) i acc).2 = none) ∧
    (o i = .priced ((p.max_price : ℚ) + 1 / 100) →
      (candStep p o (some dest, some dep, some ret) i acc).1.alerts = acc.alerts ∧
      (candStep p o (some dest, some dep, some ret) i acc).1.state = acc.state ∧
      (candStep p o (some dest, some dep, some ret) i acc).2 = none) := by
  have hne : ¬(dest = "" ∨ dep = "" ∨ ret = "") := by simp [hdest, hdep, hret]
  constructor
  · intro ho hget hrec
    obtain ⟨fields, am, hsobj, hf, hsets⟩ := set_ok_of_get_ok hget p.now
    rw [hsobj] at hget hsets
    simp [candStep, if_neg hne, ho, le_refl, hsobj, hget, if_neg hrec, hsets]
  · intro ho
    have hq2 : ¬ ((p.max_price : ℚ) + 1 / 100 ≤ (p.max_price : ℚ)) := by
      intro hcon
      linarith
    simp only [candStep, if_neg hne, ho, if_neg hq2]
    exact ⟨by trivial, by trivial, by trivial⟩

/-- Witness for `c7_cap_boundary`: a fresh ledger, cap 80; live price
exactly 80 is alerted, live price 80.01 leaves alerts and ledger alone. -/
theorem c7_cap_boundary_witness :
    ((candStep ⟨"BER", 80, 300, 1700000000⟩ (fun _ => .priced ((80 : ℤ) : ℚ))
        (some "BCN", some "2025-09-01", some "2025-09-08") 0
        ⟨emptyLedger, [], 0, 0, []⟩).1.alerts =
      [] ++ [⟨"BER", "BCN", "2025-09-01", "2025-09-08", ((80 : ℤ) : ℚ)⟩]) ∧
    ((candStep ⟨"BER", 80, 300, 1700000000⟩
        (fun _ => .priced (((80 : ℤ) : ℚ) + 1 / 100))
        (some "BCN", some "2025-09-01", some "2025-09-08") 0
        ⟨emptyLedger, [], 0, 0, []⟩).1.alerts = []) := by
  constructor
  · exact ((c7_cap_boundary ⟨"BER", 80, 300, 1700000000⟩
      (fun _ => .priced ((80 : ℤ) : ℚ)) "BCN" "2025-09-01" "2025-09-08" 0
      ⟨emptyLedger, [], 0, 0, []⟩ 0
      (by decide) (by decide) (by decide)).1 rfl rfl (by norm_num)).1
  · exact ((c7_cap_boundary ⟨"BER", 80, 300, 1700000000⟩
      (fun _ => .priced (((80 : ℤ) : ℚ) + 1 / 100)) "BCN" "2025-09-01" "2025-09-08" 0
      ⟨emptyLedger, [], 0, 0, []⟩ 0
      (by decide) (by decide) (by decide)).2 rfl).1

/-! ### C9 -/

/-- C9: a candidate missing its destination or a date field (lines
163-164), or whose live-price lookup raised, returned no offers, or
returned an unparsable price (lines 168-183), is skipped: it never enters
the alert batch, the ledger is completely untouched, and the iteration
raises nothing — the run continues. -/
theorem c9_malformed_or_priceless_candidates_are_frame
    (p : Params) (o : Nat → OffersResult)
    (it : Option String × Option String × Option String) (i : ℕ) (acc : LoopAcc)
    (h : truthy it.1 = false ∨ truthy it.2.1 = false ∨ truthy it.2.2 = false ∨
      o i = .reqError ∨ o i = .emptyData ∨ o i = .badPrice) :
    (candStep p o it i acc).1.alerts = acc.alerts ∧
    (candStep p o it i acc).1.state = acc.state ∧
    (candStep p o it i acc).2 = none := by
  obtain ⟨d?, dp?, rt?⟩ := it
  cases d? with
  | none => exact ⟨rfl, rfl, rfl⟩
  | some dest =>
  cases dp? with
  | none => exact ⟨rfl, rfl, rfl⟩
  | some dep =>
  cases rt? with
  | none => exact ⟨rfl, rfl, rfl⟩
  | some ret =>
  by_cases hempty : dest = "" ∨ dep = "" ∨ ret = ""
  · simp [candStep, if_pos hempty]
  · push_neg at hempty
    obtain ⟨h1, h2, h3⟩ := hempty
    have hne : ¬(dest = "" ∨ dep = "" ∨ ret = "") := by simp [h1, h2, h3]
    have ho : o i = .reqError ∨ o i = .emptyData ∨ o i = .badPrice := by
      rcases h with h | h | h | h | h | h
      · simp [truthy, h1] at h
      · simp [truthy, h2] at h
      · simp [truthy, h3] at h
      · exact Or.inl h
      · exact Or.inr (Or.inl h)
      · exact Or.inr (Or.inr h)
    rcases ho with ho | ho | ho <;> simp [candStep, if_neg hne, ho]

/-- Witness for `c9_malformed_or_priceless_candidates_are_frame`: a
candidate with no destination field. -/
theorem c9_malformed_or_priceless_candidates_are_frame_witness :
    (candStep ⟨"BER", 80, 300, 1700000000⟩ (fun _ => .priced 79)
      (none, some "2025-09-01", some "2025-09-08") 0
      ⟨emptyLedger, [], 0, 0, []⟩).1.alerts = [] ∧
    (candStep ⟨"BER", 80, 300, 1700000000⟩ (fun _ => .priced 79)
      (none, some "2025-09-01", some "2025-09-08") 0
      ⟨emptyLedger, [], 0, 0, []⟩).1.state = emptyLedger ∧
    (candStep ⟨"BER", 80, 300, 1700000000⟩ (fun _ => .priced 79)
      (none, some "2025-09-01", some "2025-09-08") 0
      ⟨emptyLedger, [], 0, 0, []⟩).2 = none :=
  c9_malformed_or_priceless_candidates_are_frame
    ⟨"BER", 80, 300, 1700000000⟩ (fun _ => .priced 79)
    (none, some "2025-09-01", some "2025-09-08") 0
    ⟨emptyLedger, [], 0, 0, []⟩ (Or.inl rfl)

/-! ### C8 -/

theorem candStep_alert_inv (p : Params) (o : Nat → OffersResult)
    (it : Option String × Option String × Option String) (i : ℕ) (acc : LoopAcc)
    (hnodup : (acc.alerts.map Alert.key).Nodup)
    (hinv : ∀ a ∈ acc.alerts, stateAlertsGet acc.state a.key = .ok p.now) :
    (((candStep p o it i acc).1).alerts.map Alert.key).Nodup ∧
    ∀ a ∈ (candStep p o it i acc).1.alerts,
      stateAlertsGet ((candStep p o it i acc).1).state a.key = .ok p.now := by
  obtain ⟨d?, dp?, rt?⟩ := it
  cases d? with
  | none => exact ⟨hnodup, hinv⟩
  | some dest =>
  cases dp? with
  | none => exact ⟨hnodup, hinv⟩
  | some dep =>
  cases rt? with
  | none => exact ⟨hnodup, hinv⟩
  | some ret =>
  by_cases hempty : dest = "" ∨ dep = "" ∨ ret = ""
  · simp only [candStep, if_pos hempty]
    exact ⟨hnodup, hinv⟩
  · simp only [candStep, if_neg hempty]
    cases ho : o i with
    | reqError => exact ⟨hnodup, hinv⟩
    | emptyData => exact ⟨hnodup, hinv⟩
    | badPrice => exact ⟨hnodup, hinv⟩
    | priced q =>
      by_cases hq : q ≤ (p.max_price : ℚ)
      · simp only [if_pos hq]
        cases hget : stateAlertsGet acc.state (fingerprint p.origin dest dep ret q) with
        | error e => exact ⟨hnodup, hinv⟩
        | ok last =>
          by_cases hrec : p.now - last < 48 * 3600
          · simp only [if_pos hrec]
            exact ⟨hnodup, hinv⟩
          · simp only [if_neg hrec]
            obtain ⟨fields, am, hsobj, hf, hsets⟩ := set_ok_of_get_ok hget p.now
            simp only [hsets]
            have hknotold :
                fingerprint p.origin dest dep ret q ∉ acc.alerts.map Alert.key := by
              intro hmem
              obtain ⟨a, ha, hka⟩ := List.mem_map.1 hmem
              have h1 := hinv a ha
              rw [hka, hget] at h1
              have hlast : last = p.now := by
                injection h1
              apply hrec
              rw [hlast, sub_self]
              norm_num
            constructor
            · rw [List.map_append]
              simp only [List.map_cons, List.map_nil]
              rw [List.nodup_append]
              refine ⟨hnodup, List.nodup_singleton _, ?_⟩
              intro x hx hx1
              simp only [List.mem_singleton] at hx1
              rw [hx1] at hx
              exact hknotold hx
            · intro a ha
              rcases List.mem_append.1 ha with ha | ha
              · have hne2 : a.key ≠ fingerprint p.origin dest dep ret q := by
                  intro hcon
                  exact hknotold (hcon ▸ List.mem_map_of_mem Alert.key ha)
                rw [get_after_set_other fields am _ a.key p.now hf hne2, ← hsobj]
                exact hinv a ha
              · have haeq : a = ⟨p.origin, dest, dep, ret, q⟩ := by simpa using ha
                rw [haeq]
                exact get_after_set_same fields am _ p.now hf
      · simp only [if_neg hq]
        exact ⟨hnodup, hinv⟩

theorem runCandidates_alert_inv (p : Params) (o : Nat → OffersResult)
    (l : List (Option String × Option String × Option String)) (i : ℕ)
    (acc : LoopAcc)
    (hnodup : (acc.alerts.map Alert.key).Nodup)
    (hinv : ∀ a ∈ acc.alerts, stateAlertsGet acc.state a.key = .ok p.now) :
    (((runCandidates p o l i acc).1).alerts.map Alert.key).Nodup ∧
    ∀ a ∈ (runCandidates p o l i acc).1.alerts,
      stateAlertsGet ((runCandidates p o l i acc).1).state a.key = .ok p.now := by
  induction l generalizing i acc with
  | nil => exact ⟨hnodup, hinv⟩
  | cons it rest ih =>
    unfold runCandidates
    have hstep := candStep_alert_inv p o it i acc hnodup hinv
    cases hs : candStep p o it i acc with
    | mk acc1 e? =>
      rw [hs] at hstep
      cases e? with
      | some e => exact hstep
      | none => exact ih (i + 1) acc1 hstep.1 hstep.2

/-- C8: in any run, however the world behaves — including duplicate
candidates in the inspiration result — no fingerprint appears twice among
the alerted deals: the ledger entry written at line 198 suppresses a
second candidate with the same fingerprint within the same run
(`time.time() - last` is then `0`, inside the 48-hour window). -/
theorem c8_no_duplicate_fingerprints_in_alerts (w : World) :
    (((main w).alerts).map Alert.key).Nodup := by
  unfold main
  cases pyParseInt (getenvD w.env "MAX_PRICE_EUR" "80") with
  | none => simp [earlyResult]
  | some max_price =>
  cases pyParseInt (getenvD w.env "DAYS_AHEAD" "180") with
  | none => simp [earlyResult]
  | some days =>
  cases pyParseInt (getenvD w.env "MAX_CANDIDATES" "8") with
  | none => simp [earlyResult]
  | some mc =>
  cases pyParseInt (getenvD w.env "SLEEP_BETWEEN_MS" "300") with
  | none => simp [earlyResult]
  | some sleep_ms =>
  cases htk : get_token w with
  | mk tke tko =>
  cases tko with
  | none => simp [earlyResult]
  | some u =>
  cases w.inspResult with
  | error e => simp [earlyResult]
  | ok insp =>
  have hloop := runCandidates_alert_inv
    ⟨getenvD w.env "ORIGIN" "BER", max_price, sleep_ms, w.now⟩ w.offersAt
    (pySlice mc insp) 0 ⟨load_state w.fileContent, [], 0, 0, []⟩
    (by simp) (by simp)
  cases hr : runCandidates ⟨getenvD w.env "ORIGIN" "BER", max_price, sleep_ms, w.now⟩
      w.offersAt (pySlice mc insp) 0 ⟨load_state w.fileContent, [], 0, 0, []⟩ with
  | mk acc e? =>
  rw [hr] at hloop
  cases e? with
  | some e => simpa [hr] using hloop.1
  | none =>
    by_cases hal : acc.alerts = []
    · simp [hr, hal]
    · simpa [hr, hal] using hloop.1

/-! ### C10 -/

theorem pySlice_nonneg {n : ℤ} (hn : 0 ≤ n) (l : List α) :
    pySlice n l = l.take n.toNat := by
  simp [pySlice, hn]

/-- C10: the loop at line 159 iterates over `insp[:max_candidates]`, so a
run's entire observable behaviour — trace (offers lookups included),
outcome, ledger, alerts, counters — depends only on the first
`max_candidates` inspiration records (default 8): replacing the
inspiration result by that prefix changes nothing, hence a later
candidate never triggers a live-price lookup, never reaches the alert
batch, and never touches the ledger. -/
theorem c10_only_prefix_of_candidates_evaluated (w : World) (mc : ℤ)
    (hmc : maxCandidatesOf w.env = some mc) (hnn : 0 ≤ mc) :
    main w =
      main { w with inspResult := w.inspResult.map (fun l => l.take mc.toNat) } := by
  have hg : get_token { w with inspResult := w.inspResult.map (fun l => l.take mc.toNat) } = get_token w := rfl
  have hs : send_email { w with inspResult := w.inspResult.map (fun l => l.take mc.toNat) } = send_email w := rfl
  have hmc2 : pyParseInt (getenvD w.env "MAX_CANDIDATES" "8") = some mc := hmc
  unfold main
  dsimp only
  rw [hg, hs, hmc2]
  cases pyParseInt (getenvD w.env "MAX_PRICE_EUR" "80") with
  | none => rfl
  | some max_price =>
  cases pyParseInt (getenvD w.env "DAYS_AHEAD" "180") with
  | none => rfl
  | some days =>
  cases pyParseInt (getenvD w.env "SLEEP_BETWEEN_MS" "300") with
  | none => rfl
  | some sleep_ms =>
  cases htk : get_token w with
  | mk tke tko =>
  cases tko with
  | none => rfl
  | some u =>
  cases w.inspResult with
  | error e => rfl
  | ok insp =>
  simp only [Except.map]
  rw [pySlice_nonneg hnn insp, pySlice_nonneg hnn (insp.take mc.toNat),
    List.take_take, min_self]

/-- Witness for `c10_only_prefix_of_candidates_evaluated` at `wAlert`,
whose environment leaves `MAX_CANDIDATES` at its default 8. -/
theorem c10_only_prefix_of_candidates_evaluated_witness :
    maxCandidatesOf wAlert.env = some 8 ∧ (0 : ℤ) ≤ 8 ∧
    main wAlert =
      main { wAlert with inspResult :=
        wAlert.inspResult.map (fun l => l.take (8 : ℤ).toNat) } :=
  ⟨rfl, by decide,
    c10_only_prefix_of_candidates_evaluated wAlert 8 rfl (by decide)⟩

end FareWatch
